import Mathlib

/-
  Verification of the particle-storage lifecycle and spatial-grid components
  of the SPHinXsys-based solver (SPHinXsys_DRL repository).

  The particle store is `BaseParticles` (src/src/shared/particles/base_particles.h).
  The header declares the lifecycle operations; for operations whose bodies are
  not part of the available sources, the definitions below are modelled from the
  specification and marked as such in their doc comments.  The raw counter
  update `decrementTotalRealParticles` is inline in the header (line 115) and is
  embedded directly from that source line.

  The spatial grid is `CellLinkedList` (cell_linked_list.h).  The header
  declares the rebuild/search operations; the multilevel override of
  `findNearestListDataEntry` has an inline body in the header and is embedded
  directly from it.

  The diffusion-reaction species registry (diffusion_reaction.h) has full
  template bodies in the source and is embedded directly.
-/

namespace SPHV

/-- State of the particle store `BaseParticles`: the three group bounds and the
registered per-particle attribute arrays.  Every attribute array is modelled as
a list of values of one abstract element type `α`; real particles occupy
indices `[0, totalRealParticles)`, buffer particles
`[totalRealParticles, realParticlesBound)`, ghost particles
`[realParticlesBound, particlesBound)`. -/
structure BaseParticles (α : Type) where
  totalRealParticles : Nat
  realParticlesBound : Nat
  particlesBound : Nat
  arrays : List (List α)

/-- Modelled from the spec: `copyParticle(dst, src)` elementwise-copies every
attribute array's value at `src` into `dst` (`copyFromAnotherParticle` in
base_particles.h, body not in the available sources). -/
def BaseParticles.copyFromAnotherParticle {α : Type} [Inhabited α]
    (s : BaseParticles α) (index another_index : Nat) : BaseParticles α :=
  { s with arrays := s.arrays.map fun a => a.set index (a.getD another_index default) }

/-- Modelled from the spec: `demoteToBuffer(index)` requires
`index < totalRealParticles`; performs `copyParticle(index, totalRealParticles - 1)`
then decrements `totalRealParticles` (`switchToBufferParticle` in
base_particles.h, body not in the available sources). -/
def BaseParticles.switchToBufferParticle {α : Type} [Inhabited α]
    (s : BaseParticles α) (index : Nat) : BaseParticles α :=
  { s.copyFromAnotherParticle index (s.totalRealParticles - 1) with
      totalRealParticles := s.totalRealParticles - 1 }

/-- Modelled from the spec: `promoteFromBuffer(sourceIndex)` requires
`totalRealParticles < realParticlesBound`; performs
`copyParticle(totalRealParticles, sourceIndex)` then increments
`totalRealParticles` (`createRealParticleFrom` in base_particles.h, body not in
the available sources). -/
def BaseParticles.createRealParticleFrom {α : Type} [Inhabited α]
    (s : BaseParticles α) (index : Nat) : BaseParticles α :=
  { s.copyFromAnotherParticle s.totalRealParticles index with
      totalRealParticles := s.totalRealParticles + 1 }

/-- Modelled from the spec: `initializeCapacity(totalReal)` sets
`totalRealParticles = realParticlesBound = particlesBound = totalReal` and
allocates all registered arrays (here `numArrays` of them) to this length,
default-initialized (`initializeAllParticlesBounds` in base_particles.h, body
not in the available sources). -/
def BaseParticles.initializeAllParticlesBounds (α : Type) [Inhabited α]
    (numArrays total_real_particles : Nat) : BaseParticles α :=
  { totalRealParticles := total_real_particles
    realParticlesBound := total_real_particles
    particlesBound := total_real_particles
    arrays := List.replicate numArrays (List.replicate total_real_particles default) }

/-- Modelled from the spec: `growCapacity(extra)` reallocates every attribute
array to `particlesBound + extra`, preserving existing contents at their
original indices (`increaseAllParticlesBounds` in base_particles.h, body not in
the available sources). -/
def BaseParticles.increaseAllParticlesBounds {α : Type} [Inhabited α]
    (s : BaseParticles α) (buffer_size : Nat) : BaseParticles α :=
  { s with
      particlesBound := s.particlesBound + buffer_size
      arrays := s.arrays.map fun a => a ++ List.replicate buffer_size default }

/-- Modelled from the spec: `allocateGhostRange(size)` reserves
`[particlesBound, particlesBound + size)`, returns the reserved start and moves
`particlesBound` forward (`allocateGhostParticles` in base_particles.h, body
not in the available sources). -/
def BaseParticles.allocateGhostParticles {α : Type} [Inhabited α]
    (s : BaseParticles α) (ghost_size : Nat) : Nat × BaseParticles α :=
  (s.particlesBound, s.increaseAllParticlesBounds ghost_size)

/-- The values currently held by real particles: each attribute array
restricted to indices `[0, totalRealParticles)`. -/
def realStateValues {α : Type} (s : BaseParticles α) : List (List α) :=
  s.arrays.map fun a => a.take s.totalRealParticles

/-- Embedded from base_particles.h line 115:
`void decrementTotalRealParticles(UnsignedInt decrement = 1) { *v_total_real_particles_->ValueAddress() -= decrement; }`.
`UnsignedInt` subtraction is performed modulo `2 ^ 64` with no bounds check. -/
def decrementTotalRealParticles (total_real_particles decrement : Nat) : Nat :=
  (total_real_particles + (2 ^ 64 - decrement % 2 ^ 64)) % 2 ^ 64

/-- Embedded from base_particles.h line 114: unsigned counter increment,
performed modulo `2 ^ 64`. -/
def incrementTotalRealParticles (total_real_particles increment : Nat) : Nat :=
  (total_real_particles + increment) % 2 ^ 64

/-- Particle-store states reachable through the lifecycle operations, each
invoked only when its stated precondition holds. -/
inductive BaseParticles.Reachable {α : Type} [Inhabited α] : BaseParticles α → Prop
  | init (numArrays n : Nat) :
      BaseParticles.Reachable (BaseParticles.initializeAllParticlesBounds α numArrays n)
  | grow (s : BaseParticles α) (extra : Nat) :
      BaseParticles.Reachable s →
      BaseParticles.Reachable (s.increaseAllParticlesBounds extra)
  | ghost (s : BaseParticles α) (ghost_size : Nat) :
      BaseParticles.Reachable s →
      BaseParticles.Reachable (s.allocateGhostParticles ghost_size).2
  | promote (s : BaseParticles α) (src : Nat) :
      BaseParticles.Reachable s →
      s.totalRealParticles < s.realParticlesBound →
      BaseParticles.Reachable (s.createRealParticleFrom src)
  | demote (s : BaseParticles α) (index : Nat) :
      BaseParticles.Reachable s →
      index < s.totalRealParticles →
      BaseParticles.Reachable (s.switchToBufferParticle index)

theorem copyFromAnotherParticle_totalRealParticles {α : Type} [Inhabited α]
    (s : BaseParticles α) (i j : Nat) :
    (s.copyFromAnotherParticle i j).totalRealParticles = s.totalRealParticles := rfl

theorem copyFromAnotherParticle_realParticlesBound {α : Type} [Inhabited α]
    (s : BaseParticles α) (i j : Nat) :
    (s.copyFromAnotherParticle i j).realParticlesBound = s.realParticlesBound := rfl

theorem copyFromAnotherParticle_particlesBound {α : Type} [Inhabited α]
    (s : BaseParticles α) (i j : Nat) :
    (s.copyFromAnotherParticle i j).particlesBound = s.particlesBound := rfl

/-- C2.  For every reachable particle-store state, the group bounds satisfy
`0 ≤ totalRealParticles ≤ realParticlesBound ≤ particlesBound`. -/
theorem reachable_bounds_invariant {α : Type} [Inhabited α]
    (s : BaseParticles α) (h : s.Reachable) :
    0 ≤ s.totalRealParticles ∧
    s.totalRealParticles ≤ s.realParticlesBound ∧
    s.realParticlesBound ≤ s.particlesBound := by
  induction h with
  | init numArrays n =>
      exact ⟨Nat.zero_le _, Nat.le_refl _, Nat.le_refl _⟩
  | grow s extra _ ih =>
      refine ⟨Nat.zero_le _, ih.2.1, ?_⟩
      exact le_trans ih.2.2 (Nat.le_add_right _ _)
  | ghost s ghost_size _ ih =>
      refine ⟨Nat.zero_le _, ih.2.1, ?_⟩
      exact le_trans ih.2.2 (Nat.le_add_right _ _)
  | promote s src _ hlt ih =>
      exact ⟨Nat.zero_le _, hlt, ih.2.2⟩
  | demote s index _ hlt ih =>
      refine ⟨Nat.zero_le _, ?_, ih.2.2⟩
      simp only [BaseParticles.switchToBufferParticle,
        copyFromAnotherParticle_realParticlesBound]
      omega

/-- Witness for C2: a state reached by initialization, growth, ghost
allocation, demotion and promotion satisfies the bound chain. -/
theorem reachable_bounds_invariant_witness :
    0 ≤ ((((BaseParticles.initializeAllParticlesBounds Int 1 3).increaseAllParticlesBounds
        2).switchToBufferParticle 0).createRealParticleFrom 4).totalRealParticles ∧
    ((((BaseParticles.initializeAllParticlesBounds Int 1 3).increaseAllParticlesBounds
        2).switchToBufferParticle 0).createRealParticleFrom 4).totalRealParticles ≤
      ((((BaseParticles.initializeAllParticlesBounds Int 1 3).increaseAllParticlesBounds
        2).switchToBufferParticle 0).createRealParticleFrom 4).realParticlesBound ∧
    ((((BaseParticles.initializeAllParticlesBounds Int 1 3).increaseAllParticlesBounds
        2).switchToBufferParticle 0).createRealParticleFrom 4).realParticlesBound ≤
      ((((BaseParticles.initializeAllParticlesBounds Int 1 3).increaseAllParticlesBounds
        2).switchToBufferParticle 0).createRealParticleFrom 4).particlesBound :=
  reachable_bounds_invariant _
    (BaseParticles.Reachable.promote _ 4
      (BaseParticles.Reachable.demote _ 0
        (BaseParticles.Reachable.grow _ 2 (BaseParticles.Reachable.init 1 3))
        (by decide))
      (by decide))

/-- C9.  The unsigned decrement of `totalRealParticles` performs no bounds
check: whenever `totalRealParticles < decrement` the counter wraps modulo
`2 ^ 64` to the near-maximal value `2 ^ 64 - (decrement - totalRealParticles)`,
which exceeds the old counter value and violates
`totalRealParticles ≤ realParticlesBound` for every bound below the wrapped
value. -/
theorem decrementTotalRealParticles_wraps (t d : Nat)
    (ht : t < 2 ^ 64) (hd : d < 2 ^ 64) (htd : t < d) :
    decrementTotalRealParticles t d = 2 ^ 64 - (d - t) ∧
    t < decrementTotalRealParticles t d ∧
    ∀ real_particles_bound : Nat,
      real_particles_bound < 2 ^ 64 - (d - t) →
      ¬ decrementTotalRealParticles t d ≤ real_particles_bound := by
  have h64 : (2 : Nat) ^ 64 = 18446744073709551616 := by norm_num
  unfold decrementTotalRealParticles
  rw [h64] at ht hd ⊢
  refine ⟨by omega, by omega, ?_⟩
  intro real_particles_bound hb
  omega

/-- Witness for C9: calling the decrement (as `switchToBufferParticle` does)
with `totalRealParticles = 0` wraps the counter to `2 ^ 64 - 1`, breaking the
bound `realParticlesBound = 5`. -/
theorem decrementTotalRealParticles_wraps_witness :
    decrementTotalRealParticles 0 1 = 2 ^ 64 - 1 ∧
    ¬ decrementTotalRealParticles 0 1 ≤ 5 := by
  have h := decrementTotalRealParticles_wraps 0 1 (by norm_num) (by norm_num) (by norm_num)
  exact ⟨h.1, h.2.2 5 (by norm_num)⟩

theorem set_getD_self {α : Type} (l : List α) (n : Nat) (d : α) (hn : n < l.length) :
    l.set n (l.getD n d) = l := by
  apply List.ext_getElem?
  intro m
  rw [List.getElem?_set]
  by_cases h : n = m
  · subst h
    simp [hn, List.getD_eq_getElem l d hn, List.getElem?_eq_getElem hn]
  · simp [h]

/-- C3.  `switchToBufferParticle index` with `index < totalRealParticles`
writes, in every registered attribute array, the value at slot
`totalRealParticles - 1` into slot `index`, leaves every other slot unchanged,
and decrements `totalRealParticles` by one, so the real region stays the
contiguous range `[0, totalRealParticles - 1)`. -/
theorem switchToBufferParticle_spec {α : Type} [Inhabited α]
    (s : BaseParticles α) (index : Nat) (h : index < s.totalRealParticles)
    (k : Nat) (a : List α) (ha : s.arrays[k]? = some a)
    (hlen : s.totalRealParticles ≤ a.length) :
    (s.switchToBufferParticle index).totalRealParticles = s.totalRealParticles - 1 ∧
    ∃ a2 : List α, (s.switchToBufferParticle index).arrays[k]? = some a2 ∧
      a2.length = a.length ∧
      a2[index]? = a[s.totalRealParticles - 1]? ∧
      ∀ j : Nat, j ≠ index → a2[j]? = a[j]? := by
  have hidx : index < a.length := lt_of_lt_of_le h hlen
  have htl : s.totalRealParticles - 1 < a.length := by omega
  constructor
  · rfl
  · refine ⟨a.set index (a.getD (s.totalRealParticles - 1) default), ?_, ?_, ?_, ?_⟩
    · rw [show (s.switchToBufferParticle index).arrays
          = s.arrays.map (fun b =>
              b.set index (b.getD (s.totalRealParticles - 1) default)) from rfl,
        List.getElem?_map, ha]
      rfl
    · exact List.length_set ..
    · rw [List.getElem?_set]
      simp [hidx, List.getD_eq_getElem a default htl, List.getElem?_eq_getElem htl]
    · intro j hj
      rw [List.getElem?_set, if_neg (fun hh => hj hh.symm)]

/-- Concrete store for the C3 witness: two real particles, one attribute
array holding the values 10 and 20. -/
def store32 : BaseParticles Int := ⟨2, 2, 2, [[10, 20]]⟩

/-- Witness for C3: demoting particle 0 of `store32` copies the tail value 20
into slot 0 and shrinks the real region to one particle. -/
theorem switchToBufferParticle_spec_witness :
    (store32.switchToBufferParticle 0).totalRealParticles = 2 - 1 ∧
    ∃ a2 : List Int, (store32.switchToBufferParticle 0).arrays[0]? = some a2 ∧
      a2.length = ([10, 20] : List Int).length ∧
      a2[0]? = ([10, 20] : List Int)[2 - 1]? ∧
      ∀ j : Nat, j ≠ 0 → a2[j]? = ([10, 20] : List Int)[j]? :=
  switchToBufferParticle_spec store32 0 (by decide) 0 [10, 20] (by decide) (by decide)

/-- Concrete store for the C4 counterexample: two real particles, one
attribute array holding the values 10 and 20. -/
def store42 : BaseParticles Int := ⟨2, 2, 2, [[10, 20]]⟩

/-- C4 counterexample.  Demoting particle 0 of `store42` and then promoting
the particle at the old tail slot 1 does not restore the original real
population: the value 10 is lost and the value 20 is duplicated, although the
real-particle count is restored.  This refutes both the round-trip
set-restoration property and the no-loss/no-duplication multiset invariant. -/
theorem demote_promote_loses_value :
    (10 : Int) ∈ (realStateValues store42).flatten ∧
    (realStateValues store42).flatten.count 20 = 1 ∧
    (10 : Int) ∉
      (realStateValues
        ((store42.switchToBufferParticle 0).createRealParticleFrom 1)).flatten ∧
    (realStateValues
        ((store42.switchToBufferParticle 0).createRealParticleFrom 1)).flatten.count 20
      = 2 ∧
    ((store42.switchToBufferParticle 0).createRealParticleFrom 1).totalRealParticles
      = store42.totalRealParticles := by
  decide

/-- C4 amended.  Demoting particle `i` and then promoting the particle at the
old tail slot yields, in every attribute array, the original array with slot
`i` overwritten by the old tail value (the demoted value is dropped and the
tail value duplicated), with `totalRealParticles` restored; the population is
therefore preserved only when the demoted value equals the old tail value. -/
theorem demote_promote_roundtrip_effect {α : Type} [Inhabited α]
    (s : BaseParticles α) (i : Nat) (hi : i < s.totalRealParticles)
    (k : Nat) (a : List α) (ha : s.arrays[k]? = some a)
    (hlen : s.totalRealParticles ≤ a.length) :
    ((s.switchToBufferParticle i).createRealParticleFrom
        (s.totalRealParticles - 1)).totalRealParticles = s.totalRealParticles ∧
    ((s.switchToBufferParticle i).createRealParticleFrom
        (s.totalRealParticles - 1)).arrays[k]?
      = some (a.set i (a.getD (s.totalRealParticles - 1) default)) := by
  have htl : s.totalRealParticles - 1 < a.length := by omega
  have htl2 : s.totalRealParticles - 1
      < (a.set i (a.getD (s.totalRealParticles - 1) default)).length := by
    rw [List.length_set]; exact htl
  constructor
  · show s.totalRealParticles - 1 + 1 = s.totalRealParticles
    omega
  · rw [show ((s.switchToBufferParticle i).createRealParticleFrom
          (s.totalRealParticles - 1)).arrays
        = (s.switchToBufferParticle i).arrays.map (fun b =>
            b.set (s.totalRealParticles - 1)
              (b.getD (s.totalRealParticles - 1) default)) from rfl,
      List.getElem?_map]
    rw [show (s.switchToBufferParticle i).arrays
        = s.arrays.map (fun b =>
            b.set i (b.getD (s.totalRealParticles - 1) default)) from rfl,
      List.getElem?_map, ha]
    show some ((a.set i (a.getD (s.totalRealParticles - 1) default)).set
        (s.totalRealParticles - 1) _) = _
    rw [set_getD_self _ _ _ htl2]

/-- Witness for the amended C4: on `store32` with `i = 0` the round trip
restores the count and rewrites slot 0 to the old tail value. -/
theorem demote_promote_roundtrip_effect_witness :
    ((store32.switchToBufferParticle 0).createRealParticleFrom 1).totalRealParticles = 2 ∧
    ((store32.switchToBufferParticle 0).createRealParticleFrom 1).arrays[0]? =
      some (([10, 20] : List Int).set 0 (([10, 20] : List Int).getD 1 default)) :=
  demote_promote_roundtrip_effect store32 0 (by decide) 0 [10, 20] (by decide) (by decide)

/-- C7.  `increaseAllParticlesBounds extra` with `extra > 0` enlarges
`particlesBound` by `extra`, leaves `totalRealParticles` and
`realParticlesBound` unchanged, and reallocates every registered attribute
array to length `particlesBound + extra` while preserving the value at every
previously valid index. -/
theorem increaseAllParticlesBounds_spec {α : Type} [Inhabited α]
    (s : BaseParticles α) (extra : Nat) (_hextra : 0 < extra)
    (k : Nat) (a : List α) (ha : s.arrays[k]? = some a)
    (hlen : a.length = s.particlesBound) :
    (s.increaseAllParticlesBounds extra).particlesBound = s.particlesBound + extra ∧
    (s.increaseAllParticlesBounds extra).totalRealParticles = s.totalRealParticles ∧
    (s.increaseAllParticlesBounds extra).realParticlesBound = s.realParticlesBound ∧
    ∃ a2 : List α, (s.increaseAllParticlesBounds extra).arrays[k]? = some a2 ∧
      a2.length = s.particlesBound + extra ∧
      ∀ j : Nat, j < a.length → a2[j]? = a[j]? := by
  refine ⟨rfl, rfl, rfl, a ++ List.replicate extra default, ?_, ?_, ?_⟩
  · rw [show (s.increaseAllParticlesBounds extra).arrays
        = s.arrays.map (fun b => b ++ List.replicate extra default) from rfl,
      List.getElem?_map, ha]
    rfl
  · simp [List.length_append, List.length_replicate, hlen]
  · intro j hj
    exact List.getElem?_append_left hj

/-- Concrete store for the C7 witness. -/
def store72 : BaseParticles Int := ⟨2, 2, 2, [[10, 20]]⟩

/-- Witness for C7: growing `store72` by 3 slots keeps the two original values
at indices 0 and 1 and extends the array to length 5. -/
theorem increaseAllParticlesBounds_spec_witness :
    (store72.increaseAllParticlesBounds 3).particlesBound = 2 + 3 ∧
    (store72.increaseAllParticlesBounds 3).totalRealParticles = 2 ∧
    (store72.increaseAllParticlesBounds 3).realParticlesBound = 2 ∧
    ∃ a2 : List Int, (store72.increaseAllParticlesBounds 3).arrays[0]? = some a2 ∧
      a2.length = 2 + 3 ∧
      ∀ j : Nat, j < ([10, 20] : List Int).length → a2[j]? = ([10, 20] : List Int)[j]? :=
  increaseAllParticlesBounds_spec store72 3 (by decide) 0 [10, 20] (by decide) (by decide)

/-- Element types of discrete particle variables (the closed set of semantic
types the store registers: scalar, vector, tensor, integer). -/
inductive ElementType
  | realType
  | vecdType
  | matdType
  | intType
deriving DecidableEq

/-- A named discrete variable: its name, element type and backing array
(payload values abstracted to integers). -/
structure DiscreteVariable where
  name : String
  etype : ElementType
  values : List Int
deriving DecidableEq

/-- Result of registering a state variable: the possibly extended registry and
the variable backing the name, or a type-conflict error. -/
inductive RegisterResult
  | ok (registry : List DiscreteVariable) (v : DiscreteVariable)
  | typeConflict (name : String)
deriving DecidableEq

/-- Modelled from the spec: `registerAttribute` (`registerStateVariable` /
`registerDiscreteVariable` in base_particles.h, bodies not in the available
sources) creates a default-initialized array of length `particles_bound` when
the name is unregistered, returns the existing array when the name is
registered with the same element type, and fails with `TypeConflict` when the
name is registered with a different element type. -/
def registerStateVariable (registry : List DiscreteVariable) (name : String)
    (etype : ElementType) (particles_bound : Nat) : RegisterResult :=
  match registry.find? (fun v => v.name == name) with
  | some v => if v.etype = etype then .ok registry v else .typeConflict name
  | none =>
      .ok (registry ++ [⟨name, etype, List.replicate particles_bound 0⟩])
        ⟨name, etype, List.replicate particles_bound 0⟩

/-- C6.  Registration of an attribute name: an unregistered name creates an
array of length `particlesBound`; re-registering a name with the same element
type returns the existing variable and leaves the registry unchanged
(idempotent, no new array); registering an existing name with a different
element type yields a `TypeConflict` error instead of an array. -/
theorem registerStateVariable_spec (registry : List DiscreteVariable)
    (name : String) (etype : ElementType) (particles_bound : Nat) :
    (registry.find? (fun v => v.name == name) = none →
      registerStateVariable registry name etype particles_bound =
        RegisterResult.ok
          (registry ++ [⟨name, etype, List.replicate particles_bound 0⟩])
          ⟨name, etype, List.replicate particles_bound 0⟩ ∧
      (List.replicate particles_bound (0 : Int)).length = particles_bound) ∧
    (∀ v : DiscreteVariable, registry.find? (fun v2 => v2.name == name) = some v →
      v.etype = etype →
      registerStateVariable registry name etype particles_bound =
        RegisterResult.ok registry v) ∧
    (∀ v : DiscreteVariable, registry.find? (fun v2 => v2.name == name) = some v →
      v.etype ≠ etype →
      registerStateVariable registry name etype particles_bound =
        RegisterResult.typeConflict name) := by
  refine ⟨?_, ?_, ?_⟩
  · intro hnone
    unfold registerStateVariable
    rw [hnone]
    exact ⟨rfl, List.length_replicate ..⟩
  · intro v hv het
    simp only [registerStateVariable, hv]
    rw [if_pos het]
  · intro v hv het
    simp only [registerStateVariable, hv]
    rw [if_neg het]

/-- Concrete registry for the C6 witness: one scalar variable "Density" of
length 2. -/
def registry6 : List DiscreteVariable :=
  [⟨"Density", ElementType.realType, [0, 0]⟩]

/-- Witness for C6: on `registry6`, registering the fresh name "Velocity"
creates an array of the requested length, re-registering "Density" at the same
type is idempotent, and re-registering "Density" at a different type fails. -/
theorem registerStateVariable_spec_witness :
    (registerStateVariable registry6 "Velocity" ElementType.vecdType 2 =
        RegisterResult.ok
          (registry6 ++ [⟨"Velocity", ElementType.vecdType, List.replicate 2 0⟩])
          ⟨"Velocity", ElementType.vecdType, List.replicate 2 0⟩ ∧
      (List.replicate 2 (0 : Int)).length = 2) ∧
    registerStateVariable registry6 "Density" ElementType.realType 2 =
      RegisterResult.ok registry6 ⟨"Density", ElementType.realType, [0, 0]⟩ ∧
    registerStateVariable registry6 "Density" ElementType.matdType 2 =
      RegisterResult.typeConflict "Density" :=
  ⟨(registerStateVariable_spec registry6 "Velocity" ElementType.vecdType 2).1
      (by decide),
   (registerStateVariable_spec registry6 "Density" ElementType.realType 2).2.1
      ⟨"Density", ElementType.realType, [0, 0]⟩ (by decide) (by decide),
   (registerStateVariable_spec registry6 "Density" ElementType.matdType 2).2.2
      ⟨"Density", ElementType.realType, [0, 0]⟩ (by decide) (by decide)⟩

/-- Lookup in the species index map without insertion (`std::map::find`
semantics, used to express absence of a key). -/
def mapFind (m : List (String × Nat)) (key : String) : Option Nat :=
  (m.find? (fun e => e.1 == key)).map (fun e => e.2)

/-- Embedded C++ `std::map<std::string, size_t>::operator[]` semantics as used
by diffusion_reaction.h: when the key is present, return its value and leave
the map unchanged; when the key is absent, value-initialize it to 0, insert it
(enlarging the map) and return 0. -/
def mapBracket (m : List (String × Nat)) (key : String) :
    Nat × List (String × Nat) :=
  match mapFind m key with
  | some v => (v, m)
  | none => (0, m ++ [(key, 0)])

/-- Result of `DiffusionReaction::initializeAnDiffusion`: either a registered
diffusion (with the updated species map and the two resolved indexes) or the
exit-on-error branch. -/
inductive InitDiffusionResult
  | registered (map2 : List (String × Nat))
      (diffusion_species_index gradient_species_index : Nat)
  | notDefinedError
deriving DecidableEq

/-- Embedded from diffusion_reaction.h lines 320-343
(`DiffusionReaction::initializeAnDiffusion`): both species names are looked up
with `operator[]`, then the guard compares each resulting index against the
current map size; the error branch calls `exit(1)`. -/
def initializeAnDiffusion (all_species_indexes_map : List (String × Nat))
    (diffusion_species_name gradient_species_name : String) :
    InitDiffusionResult :=
  let r1 := mapBracket all_species_indexes_map diffusion_species_name
  let r2 := mapBracket r1.2 gradient_species_name
  if r1.1 ≠ r2.2.length ∧ r2.1 ≠ r2.2.length then
    InitDiffusionResult.registered r2.2 r1.1 r2.1
  else
    InitDiffusionResult.notDefinedError

/-- Embedded from diffusion_reaction.h lines 266-285 (the reactive-species
loop of the `DiffusionReaction` constructor): one `operator[]` lookup followed
by the guard `index != map.size()`; `some` means the index was pushed,
`none` the `exit(1)` branch. -/
def lookupReactiveSpecies (all_species_indexes_map : List (String × Nat))
    (reactive_species_name : String) :
    Option (List (String × Nat) × Nat) :=
  let r := mapBracket all_species_indexes_map reactive_species_name
  if r.1 ≠ r.2.length then some (r.2, r.1) else none

theorem mapBracket_length_le (m : List (String × Nat)) (key : String) :
    m.length ≤ (mapBracket m key).2.length := by
  unfold mapBracket
  cases h : mapFind m key with
  | some v => exact Nat.le_refl _
  | none => simp

theorem mapBracket_wf (m : List (String × Nat)) (key : String)
    (hm : ∀ e ∈ m, e.2 < m.length) :
    ∀ e ∈ (mapBracket m key).2, e.2 < (mapBracket m key).2.length := by
  unfold mapBracket
  cases h : mapFind m key with
  | some v => exact hm
  | none =>
      intro e he
      simp only [List.mem_append, List.mem_singleton] at he
      rcases he with he | he
      · have := hm e he
        simp only [List.length_append, List.length_singleton]
        omega
      · subst he
        simp only [List.length_append, List.length_singleton]
        omega

theorem mapBracket_val_lt (m : List (String × Nat)) (key : String)
    (hm : ∀ e ∈ m, e.2 < m.length) :
    (mapBracket m key).1 < (mapBracket m key).2.length := by
  cases h : mapFind m key with
  | some v =>
      have hv : mapBracket m key = (v, m) := by unfold mapBracket; rw [h]
      rw [hv]
      show v < m.length
      unfold mapFind at h
      cases hf : m.find? (fun e => e.1 == key) with
      | none => rw [hf] at h; simp at h
      | some e =>
          rw [hf] at h
          simp at h
          have hmem : e ∈ m := List.mem_of_find?_eq_some hf
          have := hm e hmem
          omega
  | none =>
      have hv : mapBracket m key = (0, m ++ [(key, 0)]) := by
        unfold mapBracket; rw [h]
      rw [hv]
      simp only [List.length_append, List.length_singleton]
      omega

/-- C10.  In `initializeAnDiffusion` and the reactive-species loop of the
`DiffusionReaction` constructor, looking up a species name absent from
`all_species_indexes_map_` with `std::map::operator[]` default-inserts the name
with index 0 and enlarges the map; consequently, for every map whose stored
indexes are below its size (as built by the constructor), the guard
`index != map.size()` always holds, the exit-on-error branch is unreachable,
and an undefined species name is silently resolved to species index 0. -/
theorem initializeAnDiffusion_error_unreachable (m : List (String × Nat))
    (dn gn rn : String) (hm : ∀ e ∈ m, e.2 < m.length) :
    (mapFind m dn = none → mapBracket m dn = (0, m ++ [(dn, 0)])) ∧
    initializeAnDiffusion m dn gn =
      InitDiffusionResult.registered (mapBracket (mapBracket m dn).2 gn).2
        (mapBracket m dn).1 (mapBracket (mapBracket m dn).2 gn).1 ∧
    (mapFind m dn = none → (mapBracket m dn).1 = 0) ∧
    lookupReactiveSpecies m rn = some ((mapBracket m rn).2, (mapBracket m rn).1) ∧
    (mapFind m rn = none → (mapBracket m rn).1 = 0) := by
  have h1 : (mapBracket m dn).1 < (mapBracket m dn).2.length :=
    mapBracket_val_lt m dn hm
  have hwf1 : ∀ e ∈ (mapBracket m dn).2, e.2 < (mapBracket m dn).2.length :=
    mapBracket_wf m dn hm
  have h2 : (mapBracket (mapBracket m dn).2 gn).1
      < (mapBracket (mapBracket m dn).2 gn).2.length :=
    mapBracket_val_lt (mapBracket m dn).2 gn hwf1
  have h12 : (mapBracket m dn).2.length
      ≤ (mapBracket (mapBracket m dn).2 gn).2.length :=
    mapBracket_length_le (mapBracket m dn).2 gn
  have hr : (mapBracket m rn).1 < (mapBracket m rn).2.length :=
    mapBracket_val_lt m rn hm
  refine ⟨?_, ?_, ?_, ?_, ?_⟩
  · intro hnone
    unfold mapBracket
    rw [hnone]
  · unfold initializeAnDiffusion
    rw [if_pos]
    constructor
    · omega
    · omega
  · intro hnone
    unfold mapBracket
    rw [hnone]
  · unfold lookupReactiveSpecies
    rw [if_pos]
    omega
  · intro hnone
    unfold mapBracket
    rw [hnone]

/-- Concrete species map for the C10 witness: two species with indexes 0, 1. -/
def speciesMap10 : List (String × Nat) := [("Phi", 0), ("Temperature", 1)]

/-- Witness for C10: the undefined name "Voltage" is default-inserted with
index 0, the error branch is not taken, and the reactive-species lookup of the
undefined name also resolves to index 0. -/
theorem initializeAnDiffusion_error_unreachable_witness :
    (mapFind speciesMap10 "Voltage" = none →
      mapBracket speciesMap10 "Voltage" = (0, speciesMap10 ++ [("Voltage", 0)])) ∧
    initializeAnDiffusion speciesMap10 "Voltage" "Phi" =
      InitDiffusionResult.registered
        (mapBracket (mapBracket speciesMap10 "Voltage").2 "Phi").2
        (mapBracket speciesMap10 "Voltage").1
        (mapBracket (mapBracket speciesMap10 "Voltage").2 "Phi").1 ∧
    (mapFind speciesMap10 "Voltage" = none →
      (mapBracket speciesMap10 "Voltage").1 = 0) ∧
    lookupReactiveSpecies speciesMap10 "Voltage" =
      some ((mapBracket speciesMap10 "Voltage").2,
        (mapBracket speciesMap10 "Voltage").1) ∧
    (mapFind speciesMap10 "Voltage" = none →
      (mapBracket speciesMap10 "Voltage").1 = 0) :=
  initializeAnDiffusion_error_unreachable speciesMap10 "Voltage" "Phi" "Voltage"
    (by decide)

/-- Two-dimensional position vector with rational coordinates. -/
abbrev Vec2 := ℚ × ℚ

/-- Squared Euclidean distance between two positions; `distSq p q < r ^ 2`
with `0 ≤ r` is equivalent to the Euclidean distance being below `r`. -/
def distSq (p q : Vec2) : ℚ := (p.1 - q.1) ^ 2 + (p.2 - q.2) ^ 2

/-- The uniform background mesh: lower bound of the bounding box and the grid
spacing (sized to the reference cutoff radius). -/
structure Mesh where
  boundMin : Vec2
  grid_spacing : ℚ

/-- Modelled from the spec: the cell coordinate of a position is the
element-wise floor of `(position - boundMin) / spacing` (the
`CellIndexFromPosition` computation of the mesh, body not in the available
sources). -/
def Mesh.CellIndexFromPosition (mesh : Mesh) (position : Vec2) : ℤ × ℤ :=
  (⌊(position.1 - mesh.boundMin.1) / mesh.grid_spacing⌋,
   ⌊(position.2 - mesh.boundMin.2) / mesh.grid_spacing⌋)

/-- The cell-linked-list grid: its mesh and, for every cell coordinate, the
list of particle indices currently inserted into that cell. -/
structure CellLinkedList where
  mesh : Mesh
  cells : ℤ × ℤ → List Nat

/-- Modelled from the spec: clear every cell's particle-index list
(`CellLinkedList::clearCellLists`, body not in the available sources). -/
def CellLinkedList.clearCellLists (g : CellLinkedList) : CellLinkedList :=
  { g with cells := fun _ => [] }

/-- Modelled from the spec: append `particle_index` to the list of the cell
containing `particle_position`
(`CellLinkedList::insertACellLinkedParticleIndex`, body not in the available
sources). -/
def CellLinkedList.insertACellLinkedParticleIndex (g : CellLinkedList)
    (particle_index : Nat) (particle_position : Vec2) : CellLinkedList :=
  { g with cells := fun c =>
      if c = g.mesh.CellIndexFromPosition particle_position then
        g.cells c ++ [particle_index]
      else g.cells c }

/-- Modelled from the spec: `rebuild()` clears every cell, then inserts every
real particle index `i < total_real_particles` into the cell of `position i`
(`CellLinkedList::UpdateCellLists`, body not in the available sources). -/
def CellLinkedList.UpdateCellLists (g : CellLinkedList) (pos : Nat → Vec2)
    (total_real_particles : Nat) : CellLinkedList :=
  (List.range total_real_particles).foldl
    (fun acc i => acc.insertACellLinkedParticleIndex i (pos i)) g.clearCellLists

/-- The axis-aligned range of cell coordinates within `d` rings of `center`
along one axis. -/
def cellRange (center : ℤ) (d : Nat) : List ℤ :=
  (List.range (2 * d + 1)).map fun k : Nat => center - (d : ℤ) + (k : ℤ)

/-- The block of cells within `d` rings of `center` (for `d = 1`, the 3×3
block). -/
def cellBlock (center : ℤ × ℤ) (d : Nat) : List (ℤ × ℤ) :=
  (cellRange center.1 d).flatMap fun x => (cellRange center.2 d).map fun y => (x, y)

/-- Modelled from the spec: for source particle `i`, scan the candidate cells
within `search_depth` rings of its own cell and keep every candidate `j` with
`distance < cutoffRadius` and `j ≠ i`
(`CellLinkedList::searchNeighborsByParticles`, body not in the available
sources; the distance test is expressed on squared distances). -/
def CellLinkedList.searchNeighborsByParticles (g : CellLinkedList)
    (pos : Nat → Vec2) (i : Nat) (cutoff_radius : ℚ) (search_depth : Nat) :
    List Nat :=
  (cellBlock (g.mesh.CellIndexFromPosition (pos i)) search_depth).flatMap fun c =>
    (g.cells c).filter fun j =>
      decide (distSq (pos j) (pos i) < cutoff_radius ^ 2) && decide (j ≠ i)

/-- The particle indices found in the 3×3 block of cells centered on the cell
of `position`. -/
def CellLinkedList.nearestCandidates (g : CellLinkedList) (position : Vec2) :
    List Nat :=
  (cellBlock (g.mesh.CellIndexFromPosition position) 1).flatMap g.cells

/-- Modelled from the spec: `findNearest(point)` scans the 3×3 block of cells
centered on the point's own cell and returns the particle index minimizing the
Euclidean distance to the point; `none` is the NeighborNotFound sentinel
returned when the block holds no particles
(`CellLinkedList::findNearestListDataEntry`, body not in the available
sources). -/
def CellLinkedList.findNearestListDataEntry (g : CellLinkedList)
    (pos : Nat → Vec2) (position : Vec2) : Option Nat :=
  (g.nearestCandidates position).argmin fun j => distSq (pos j) position

/-- A multilevel cell linked list over a stack of grids; the available header
gives its `findNearestListDataEntry` override inline. -/
structure MultilevelCellLinkedList where
  positions : List Vec2

/-- Embedded from cell_linked_list.h line 196: the multilevel override is
`{ return ListData(0, Vecd::Zero()); }` — it ignores the grid contents and the
query point entirely and always yields particle index 0 at the zero vector. -/
def MultilevelCellLinkedList.findNearestListDataEntry
    (_g : MultilevelCellLinkedList) (_position : Vec2) : Nat × Vec2 :=
  (0, ((0 : ℚ), (0 : ℚ)))

theorem insert_mesh (g : CellLinkedList) (i : Nat) (p : Vec2) :
    (g.insertACellLinkedParticleIndex i p).mesh = g.mesh := rfl

theorem insert_cells (g : CellLinkedList) (i : Nat) (p : Vec2) (c : ℤ × ℤ) :
    (g.insertACellLinkedParticleIndex i p).cells c
      = if c = g.mesh.CellIndexFromPosition p then g.cells c ++ [i]
        else g.cells c := rfl

theorem foldl_insert_mesh (pos : Nat → Vec2) (l : List Nat) (g : CellLinkedList) :
    (l.foldl (fun acc i => acc.insertACellLinkedParticleIndex i (pos i)) g).mesh
      = g.mesh := by
  induction l generalizing g with
  | nil => rfl
  | cons head tail ih =>
      rw [List.foldl_cons, ih]
      rfl

theorem foldl_insert_cells (pos : Nat → Vec2) (l : List Nat) (g : CellLinkedList)
    (c : ℤ × ℤ) :
    (l.foldl (fun acc i => acc.insertACellLinkedParticleIndex i (pos i)) g).cells c
      = g.cells c
        ++ l.filter (fun i => decide (c = g.mesh.CellIndexFromPosition (pos i))) := by
  induction l generalizing g with
  | nil => simp
  | cons head tail ih =>
      rw [List.foldl_cons, ih, insert_mesh, insert_cells]
      by_cases hc : c = g.mesh.CellIndexFromPosition (pos head)
      · rw [if_pos hc, List.filter_cons_of_pos (by simpa using hc),
          List.append_assoc]
        rfl
      · rw [if_neg hc, List.filter_cons_of_neg (by simpa using hc)]

theorem UpdateCellLists_mesh (g : CellLinkedList) (pos : Nat → Vec2) (n : Nat) :
    (g.UpdateCellLists pos n).mesh = g.mesh := by
  unfold CellLinkedList.UpdateCellLists
  rw [foldl_insert_mesh]
  rfl

theorem UpdateCellLists_cells (g : CellLinkedList) (pos : Nat → Vec2) (n : Nat)
    (c : ℤ × ℤ) :
    (g.UpdateCellLists pos n).cells c
      = (List.range n).filter
          (fun i => decide (c = g.mesh.CellIndexFromPosition (pos i))) := by
  unfold CellLinkedList.UpdateCellLists
  rw [foldl_insert_cells]
  rfl

theorem mem_cellRange (center : ℤ) (d : Nat) (x : ℤ) :
    x ∈ cellRange center d ↔ |x - center| ≤ (d : ℤ) := by
  unfold cellRange
  rw [List.mem_map, abs_le]
  constructor
  · rintro ⟨k, hk, rfl⟩
    rw [List.mem_range] at hk
    omega
  · intro h
    refine ⟨(x - center + (d : ℤ)).toNat, ?_, ?_⟩
    · rw [List.mem_range]
      omega
    · omega

theorem mem_cellBlock (center : ℤ × ℤ) (d : Nat) (c : ℤ × ℤ) :
    c ∈ cellBlock center d ↔
      |c.1 - center.1| ≤ (d : ℤ) ∧ |c.2 - center.2| ≤ (d : ℤ) := by
  simp only [cellBlock, List.mem_flatMap, List.mem_map]
  constructor
  · rintro ⟨x, hx, y, hy, rfl⟩
    exact ⟨(mem_cellRange _ _ _).1 hx, (mem_cellRange _ _ _).1 hy⟩
  · rintro ⟨h1, h2⟩
    exact ⟨c.1, (mem_cellRange _ _ _).2 h1, c.2, (mem_cellRange _ _ _).2 h2, rfl⟩

theorem floor_sub_le_of_sub_lt (a b : ℚ) (d : Nat) (hab : a - b < d) :
    ⌊a⌋ - ⌊b⌋ ≤ (d : ℤ) := by
  have h1 : (⌊a⌋ : ℚ) ≤ a := Int.floor_le a
  have h2 : b < (⌊b⌋ : ℚ) + 1 := Int.lt_floor_add_one b
  have h3 : (⌊a⌋ : ℚ) < (⌊b⌋ : ℚ) + 1 + (d : ℚ) := by
    linarith
  have h4 : ⌊a⌋ < ⌊b⌋ + 1 + (d : ℤ) := by exact_mod_cast h3
  omega

theorem abs_floor_sub_le (x y h : ℚ) (d : Nat) (hh : 0 < h)
    (hxy : |x - y| < d * h) : |⌊x / h⌋ - ⌊y / h⌋| ≤ (d : ℤ) := by
  rw [abs_lt] at hxy
  rw [abs_le]
  constructor
  · have hba : y / h - x / h < d := by
      rw [div_sub_div_same, div_lt_iff₀ hh]
      linarith [hxy.1]
    have := floor_sub_le_of_sub_lt (y / h) (x / h) d hba
    omega
  · have hab : x / h - y / h < d := by
      rw [div_sub_div_same, div_lt_iff₀ hh]
      linarith [hxy.2]
    exact floor_sub_le_of_sub_lt (x / h) (y / h) d hab

theorem distSq_axis_lt (p q : Vec2) (r : ℚ) (hr : 0 ≤ r)
    (h : distSq p q < r ^ 2) : |p.1 - q.1| < r ∧ |p.2 - q.2| < r := by
  unfold distSq at h
  constructor
  · refine abs_lt_of_sq_lt_sq ?_ hr
    have := sq_nonneg (p.2 - q.2)
    linarith
  · refine abs_lt_of_sq_lt_sq ?_ hr
    have := sq_nonneg (p.1 - q.1)
    linarith

theorem cell_within_block (mesh : Mesh) (pi2 pj : Vec2) (r : ℚ) (d : Nat)
    (hsp : 0 < mesh.grid_spacing) (hr : 0 ≤ r)
    (hd : r ≤ d * mesh.grid_spacing) (hdist : distSq pj pi2 < r ^ 2) :
    mesh.CellIndexFromPosition pj ∈ cellBlock (mesh.CellIndexFromPosition pi2) d := by
  rw [mem_cellBlock]
  obtain ⟨hx, hy⟩ := distSq_axis_lt pj pi2 r hr hdist
  constructor
  · show |⌊(pj.1 - mesh.boundMin.1) / mesh.grid_spacing⌋
        - ⌊(pi2.1 - mesh.boundMin.1) / mesh.grid_spacing⌋| ≤ (d : ℤ)
    apply abs_floor_sub_le _ _ _ d hsp
    have heq : (pj.1 - mesh.boundMin.1) - (pi2.1 - mesh.boundMin.1)
        = pj.1 - pi2.1 := by ring
    rw [heq]
    calc |pj.1 - pi2.1| < r := hx
      _ ≤ d * mesh.grid_spacing := hd
  · show |⌊(pj.2 - mesh.boundMin.2) / mesh.grid_spacing⌋
        - ⌊(pi2.2 - mesh.boundMin.2) / mesh.grid_spacing⌋| ≤ (d : ℤ)
    apply abs_floor_sub_le _ _ _ d hsp
    have heq : (pj.2 - mesh.boundMin.2) - (pi2.2 - mesh.boundMin.2)
        = pj.2 - pi2.2 := by ring
    rw [heq]
    calc |pj.2 - pi2.2| < r := hy
      _ ≤ d * mesh.grid_spacing := hd

/-- C5.  A grid rebuild first clears every cell and then inserts every real
particle index `i < n`, and only those, exactly once into the cell that is the
element-wise floor of `(position i - boundMin) / spacing`: membership in a
cell holds exactly for real indices whose position falls in that cell, the
index appears exactly once in its own cell and never in any other cell, and
the result is independent of the previous grid contents (no stale index
survives). -/
theorem UpdateCellLists_spec (g g2 : CellLinkedList) (pos : Nat → Vec2)
    (n : Nat) (c : ℤ × ℤ) (i : Nat) :
    (i ∈ (g.UpdateCellLists pos n).cells c ↔
      i < n ∧ g.mesh.CellIndexFromPosition (pos i) = c) ∧
    ((g.UpdateCellLists pos n).cells (g.mesh.CellIndexFromPosition (pos i))).count i
      = (if i < n then 1 else 0) ∧
    (g.mesh.CellIndexFromPosition (pos i) ≠ c →
      ((g.UpdateCellLists pos n).cells c).count i = 0) ∧
    (g2.mesh = g.mesh →
      (g2.UpdateCellLists pos n).cells c = (g.UpdateCellLists pos n).cells c) := by
  refine ⟨?_, ?_, ?_, ?_⟩
  · rw [UpdateCellLists_cells]
    simp only [List.mem_filter, List.mem_range, decide_eq_true_eq]
    exact ⟨fun hc => ⟨hc.1, hc.2.symm⟩, fun hc => ⟨hc.1, hc.2.symm⟩⟩
  · rw [UpdateCellLists_cells]
    by_cases hn : i < n
    · rw [if_pos hn]
      rw [List.count_filter (by simp)]
      exact List.count_eq_one_of_mem (List.nodup_range n) (List.mem_range.2 hn)
    · rw [if_neg hn]
      refine List.count_eq_zero_of_not_mem fun hmem => ?_
      rw [List.mem_filter, List.mem_range] at hmem
      exact hn hmem.1
  · intro hne
    rw [UpdateCellLists_cells]
    refine List.count_eq_zero_of_not_mem fun hmem => ?_
    rw [List.mem_filter] at hmem
    have := of_decide_eq_true hmem.2
    exact hne this.symm
  · intro hmesh
    rw [UpdateCellLists_cells, UpdateCellLists_cells, hmesh]

/-- Concrete mesh and grids for the grid witnesses: unit spacing, origin at
zero. -/
def mesh0 : Mesh := ⟨((0 : ℚ), (0 : ℚ)), 1⟩

/-- An empty concrete grid over `mesh0`. -/
def grid0 : CellLinkedList := ⟨mesh0, fun _ => []⟩

/-- A concrete grid over `mesh0` whose every cell holds a stale index. -/
def gridJunk : CellLinkedList := ⟨mesh0, fun _ => [7]⟩

/-- Concrete particle positions for the grid witnesses: particle 0 at the
origin, all others at `(1, 0)`. -/
def pos0 : Nat → Vec2 := fun k => if k = 0 then ((0 : ℚ), (0 : ℚ)) else ((1 : ℚ), (0 : ℚ))

/-- Witness for C5: on a two-particle rebuild over `mesh0`, cell membership of
index 0 at the origin cell is characterized, and rebuilding the junk-filled
grid gives the same cell contents as rebuilding the empty grid. -/
theorem UpdateCellLists_spec_witness :
    (0 ∈ (grid0.UpdateCellLists pos0 2).cells ((0 : ℤ), (0 : ℤ)) ↔
      0 < 2 ∧ mesh0.CellIndexFromPosition (pos0 0) = ((0 : ℤ), (0 : ℤ))) ∧
    ((grid0.UpdateCellLists pos0 2).cells
        (mesh0.CellIndexFromPosition (pos0 0))).count 0 = 1 ∧
    (gridJunk.UpdateCellLists pos0 2).cells ((0 : ℤ), (0 : ℤ))
      = (grid0.UpdateCellLists pos0 2).cells ((0 : ℤ), (0 : ℤ)) := by
  have h := UpdateCellLists_spec grid0 gridJunk pos0 2 ((0 : ℤ), (0 : ℤ)) 0
  exact ⟨h.1, h.2.1, h.2.2.2 rfl⟩

/-- C1.  On a freshly rebuilt grid holding the real particles `0 ≤ j < n`,
the neighbor search for source particle `i` returns exactly the indices `j`
with `j < n`, `j ≠ i` and Euclidean distance to the source strictly below the
cutoff radius (expressed on squared distances), provided the search depth
covers the cutoff (`cutoff ≤ depth * spacing`): every true neighbor is found
even across cell boundaries, and no particle at or beyond the cutoff —
including ones in adjacent cells — is ever returned. -/
theorem searchNeighborsByParticles_spec (g : CellLinkedList) (pos : Nat → Vec2)
    (n i : Nat) (cutoff_radius : ℚ) (search_depth : Nat)
    (hsp : 0 < g.mesh.grid_spacing) (hr : 0 ≤ cutoff_radius)
    (hd : cutoff_radius ≤ search_depth * g.mesh.grid_spacing) (j : Nat) :
    j ∈ (g.UpdateCellLists pos n).searchNeighborsByParticles pos i cutoff_radius
        search_depth ↔
      j < n ∧ j ≠ i ∧ distSq (pos j) (pos i) < cutoff_radius ^ 2 := by
  unfold CellLinkedList.searchNeighborsByParticles
  rw [UpdateCellLists_mesh]
  simp only [List.mem_flatMap, List.mem_filter, Bool.and_eq_true, decide_eq_true_eq]
  constructor
  · rintro ⟨c, _, hjc, hdist, hne⟩
    rw [UpdateCellLists_cells] at hjc
    rw [List.mem_filter, List.mem_range] at hjc
    exact ⟨hjc.1, hne, hdist⟩
  · rintro ⟨hjn, hne, hdist⟩
    refine ⟨g.mesh.CellIndexFromPosition (pos j),
      cell_within_block g.mesh (pos i) (pos j) cutoff_radius search_depth hsp hr
        hd hdist, ?_, hdist, hne⟩
    rw [UpdateCellLists_cells, List.mem_filter, List.mem_range]
    exact ⟨hjn, by simp⟩

/-- Witness for C1: with unit spacing, depth 2 and cutoff 3/2 over `mesh0`,
membership of candidate 1 in the neighbor list of source 0 is exactly the
strict distance test. -/
theorem searchNeighborsByParticles_spec_witness :
    1 ∈ (grid0.UpdateCellLists pos0 2).searchNeighborsByParticles pos0 0
        ((3 : ℚ) / 2) 2 ↔
      1 < 2 ∧ 1 ≠ 0 ∧ distSq (pos0 1) (pos0 0) < ((3 : ℚ) / 2) ^ 2 :=
  searchNeighborsByParticles_spec grid0 pos0 2 0 ((3 : ℚ) / 2) 2
    (by norm_num [grid0, mesh0]) (by norm_num) (by norm_num [grid0, mesh0]) 1

/-- C8 counterexample.  The multilevel override of `findNearestListDataEntry`
is a stub: on a configuration with particle 0 at `(10, 10)` and particle 1 at
`(0, 0)`, querying the point `(0, 0)` returns particle index 0 even though
particle 1 is strictly nearer, and an empty configuration yields the very same
non-sentinel answer — so the multilevel variant neither returns the minimizing
index nor a NeighborNotFound sentinel when no particle is present. -/
theorem multilevel_findNearest_counterexample :
    (MultilevelCellLinkedList.findNearestListDataEntry
        ⟨[((10 : ℚ), (10 : ℚ)), ((0 : ℚ), (0 : ℚ))]⟩ ((0 : ℚ), (0 : ℚ))).1 = 0 ∧
    distSq ((0 : ℚ), (0 : ℚ)) ((0 : ℚ), (0 : ℚ))
      < distSq ((10 : ℚ), (10 : ℚ)) ((0 : ℚ), (0 : ℚ)) ∧
    MultilevelCellLinkedList.findNearestListDataEntry ⟨[]⟩ ((0 : ℚ), (0 : ℚ))
      = MultilevelCellLinkedList.findNearestListDataEntry
          ⟨[((10 : ℚ), (10 : ℚ)), ((0 : ℚ), (0 : ℚ))]⟩ ((0 : ℚ), (0 : ℚ)) := by
  refine ⟨rfl, ?_, rfl⟩
  norm_num [distSq]

/-- C8 amended.  For the single-level grid, `findNearestListDataEntry` returns
the `none` sentinel exactly when the 3×3 block of cells centered on the query
point's cell holds no particle, and whenever it returns an index that index
lies in the block and minimizes the Euclidean distance to the query point over
all particles in the block; the multilevel override, in contrast, is a stub
that always returns `ListData(0, Vecd::Zero())` regardless of grid contents
(see the counterexample). -/
theorem findNearestListDataEntry_spec (g : CellLinkedList) (pos : Nat → Vec2)
    (position : Vec2) :
    (g.findNearestListDataEntry pos position = none ↔
      g.nearestCandidates position = []) ∧
    ∀ j : Nat, g.findNearestListDataEntry pos position = some j →
      j ∈ g.nearestCandidates position ∧
      ∀ k : Nat, k ∈ g.nearestCandidates position →
        distSq (pos j) position ≤ distSq (pos k) position := by
  constructor
  · exact List.argmin_eq_none
  · intro j hj
    exact ⟨List.argmin_mem hj, fun k hk => List.le_of_mem_argmin hk hj⟩

/-- Witness for the amended C8: the characterization instantiated on the
rebuilt two-particle grid over `mesh0` at query point `(5, 5)`. -/
theorem findNearestListDataEntry_spec_witness :
    ((grid0.UpdateCellLists pos0 2).findNearestListDataEntry pos0
        ((5 : ℚ), (5 : ℚ)) = none ↔
      (grid0.UpdateCellLists pos0 2).nearestCandidates ((5 : ℚ), (5 : ℚ)) = []) ∧
    ∀ j : Nat, (grid0.UpdateCellLists pos0 2).findNearestListDataEntry pos0
        ((5 : ℚ), (5 : ℚ)) = some j →
      j ∈ (grid0.UpdateCellLists pos0 2).nearestCandidates ((5 : ℚ), (5 : ℚ)) ∧
      ∀ k : Nat, k ∈ (grid0.UpdateCellLists pos0 2).nearestCandidates
          ((5 : ℚ), (5 : ℚ)) →
        distSq (pos0 j) ((5 : ℚ), (5 : ℚ)) ≤ distSq (pos0 k) ((5 : ℚ), (5 : ℚ)) :=
  findNearestListDataEntry_spec (grid0.UpdateCellLists pos0 2) pos0
    ((5 : ℚ), (5 : ℚ))

end SPHV
